import Mathlib

/-!
# Watchdog: event-driven restart orchestrator

A shallow embedding of `src/main.go` (package `main` of the watchdog daemon) and the
properties of its cooldown policy, event filter and command sequencing.

Modelling conventions.

* Go strings are modelled by Lean `String`; the string functions of package `strings`
  that the program calls (`Contains`, `HasPrefix`, `TrimPrefix`) are written over the
  underlying character lists.
* A `time.Time` is the monotonic clock reading in nanoseconds, an `Int`; a
  `time.Duration` is an `Int` number of nanoseconds, and `Time.Sub` saturates at the
  bounds of a signed 64-bit integer as the Go runtime does.
* The package-level variables `imageToWatch` and `composeFilePath` are set once by `main`
  and are read-only afterwards: they are the fields of `Config`. The package-level map
  `lastProcessed` is the explicit state `CooldownTable`.
* Everything the program observes from outside while one event is handled (the result of
  `ContainerInspect`, the two clock readings, the outcome of every external command) is a
  `World`. Everything the program does to the outside is recorded, in order, as a list of
  `Effect`s.
-/

namespace Watchdog

/-! ## Package `strings` -/

/-- Go `strings.HasPrefix(s, pre)` on character lists. -/
def hasPrefixList (s pre : List Char) : Bool :=
  pre.isPrefixOf s

/-- Go `strings.Contains(s, substr)` on character lists: does `substr` start at some
offset of `s`? -/
def containsList : List Char → List Char → Bool
  | [], substr => hasPrefixList [] substr
  | c :: cs, substr => hasPrefixList (c :: cs) substr || containsList cs substr

/-- Go `strings.HasPrefix`. -/
def HasPrefix (s pre : String) : Bool :=
  hasPrefixList s.data pre.data

/-- Go `strings.Contains`. -/
def Contains (s substr : String) : Bool :=
  containsList s.data substr.data

/-- Go `strings.TrimPrefix`: `s` without the leading `pre` when `s` starts with `pre`,
and `s` itself otherwise. -/
def TrimPrefix (s pre : String) : String :=
  if HasPrefix s pre then String.mk (s.data.drop pre.data.length) else s

/-! ## Package `time` -/

/-- Smallest `time.Duration` (`math.MinInt64` nanoseconds). -/
def minDuration : Int := -(2 ^ 63)

/-- Largest `time.Duration` (`math.MaxInt64` nanoseconds). -/
def maxDuration : Int := 2 ^ 63 - 1

/-- Go `time.Second`, in nanoseconds. -/
def Second : Int := 1000000000

/-- Go `t.Sub(u)` on monotonic readings: the difference, saturated to the range of
`time.Duration`. -/
def Time.Sub (t u : Int) : Int :=
  let d := t - u
  if d < minDuration then minDuration
  else if maxDuration < d then maxDuration
  else d

/-- Go `time.Since(t)`, given the clock reading `now` it takes. -/
def Since (now t : Int) : Int :=
  Time.Sub now t

/-! ## Data model -/

/-- Go `cooldownPeriod = 60 * time.Second`. -/
def cooldownPeriod : Int := 60 * Second

/-- Docker `events.ContainerEventType`. -/
def ContainerEventType : String := "container"

/-- The package-level variables assigned once in `main`. -/
structure Config where
  imageToWatch : String
  composeFilePath : String

/-- The package-level map `lastProcessed`: container name to time of last processing. -/
abbrev CooldownTable := String → Option Int

/-- The table `make(map[string]time.Time)` the program starts with. -/
def emptyTable : CooldownTable := fun _ => none

/-- The map assignment `m[name] = t`. -/
def CooldownTable.set (m : CooldownTable) (name : String) (t : Int) : CooldownTable :=
  fun k => if k = name then some t else m k

/-- Docker `events.Message`, the fields the program reads: `Type`, `Action`, `Actor.ID`. -/
structure Message where
  EventType : String
  Action : String
  ActorID : String

/-- Docker `types.ContainerJSON`, the fields the program reads: `Name`, `Config.Image`.
The pointer `Config` is taken to be set, as it is in every answer of the daemon. -/
structure ContainerJSON where
  Name : String
  Image : String

/-- An error returned by `cli.ContainerInspect`: its text and what `client.IsErrNotFound`
says of it. -/
structure InspectError where
  text : String
  isErrNotFound : Bool

/-- What `cmd.CombinedOutput()` returns: the captured output and the error, if any. -/
structure CmdResult where
  output : String
  err : Option String

/-- What the program observes from outside while it handles one event. -/
structure World where
  /-- Result of `cli.ContainerInspect(ctx, id)`. -/
  ContainerInspect : String → Except InspectError ContainerJSON
  /-- Clock reading taken by `time.Since` (line 103). -/
  clockSince : Int
  /-- Clock reading taken by `time.Now()` (line 108). -/
  clockNow : Int
  /-- Outcome of running a program with an argument vector. -/
  CombinedOutput : String → List String → CmdResult

/-- What the program does to the outside, one entry per action. -/
inductive Effect where
  /-- A call of `cli.ContainerInspect` with this identifier. -/
  | inspect (id : String)
  /-- The map write `lastProcessed[name] = t`. -/
  | store (name : String) (t : Int)
  /-- A line given to `log.Printf`. -/
  | log (line : String)
  /-- An external process: program and argument vector. -/
  | exec (prog : String) (argv : List String)
  deriving DecidableEq, Repr

/-! ## The program -/

/-- Go `executeDockerComposeCommand(command, args...)`: the effects and the returned
error. -/
def executeDockerComposeCommand (cfg : Config) (w : World) (command : String)
    (args : List String) : List Effect × Option String :=
  let fullArgs := ["compose", "-f", cfg.composeFilePath, command] ++ args
  let r := w.CombinedOutput "docker" fullArgs
  match r.err with
  | some e =>
    ([Effect.exec "docker" fullArgs],
      some ("command 'docker compose " ++ command ++ "' failed with output: " ++ r.output
        ++ ", error: " ++ e))
  | none =>
    ([Effect.exec "docker" fullArgs,
      Effect.log ("Command 'docker compose " ++ command ++ "' succeeded")], none)

/-- Go `restartContainerWithDocker(containerName)`. -/
def restartContainerWithDocker (cfg : Config) (w : World) (containerName : String) :
    List Effect :=
  match executeDockerComposeCommand cfg w "kill" [containerName] with
  | (e1, some err) =>
    e1 ++ [Effect.log ("Failed to kill container " ++ containerName ++ ": " ++ err ++ "\n")]
  | (e1, none) =>
  match executeDockerComposeCommand cfg w "pull" [containerName] with
  | (e2, some err) =>
    e1 ++ e2 ++ [Effect.log
      ("Failed to pull the latest image for " ++ containerName ++ ": " ++ err ++ "\n")]
  | (e2, none) =>
  match executeDockerComposeCommand cfg w "rm" ["-f", containerName] with
  | (e3, some err) =>
    e1 ++ e2 ++ e3 ++ [Effect.log
      ("Failed to remove container " ++ containerName ++ ": " ++ err ++ "\n")]
  | (e3, none) =>
  match executeDockerComposeCommand cfg w "up" ["-d", containerName] with
  | (e4, some err) =>
    e1 ++ e2 ++ e3 ++ e4 ++ [Effect.log
      ("Failed to start container " ++ containerName ++ ": " ++ err ++ "\n")]
  | (e4, none) =>
    e1 ++ e2 ++ e3 ++ e4 ++ [Effect.log
      ("Container " ++ containerName ++ " has been updated and restarted successfully.\n")]

/-- The condition `exists && time.Since(lastTime) < cooldownPeriod` of line 103, on the
result of the map lookup `lastTime, exists := lastProcessed[containerName]`. -/
def inCooldown (w : World) (entry : Option Int) : Bool :=
  match entry with
  | some lastTime => decide (Since w.clockSince lastTime < cooldownPeriod)
  | none => false

/-- Go `handleDockerEvent(ctx, cli, event)`: the cooldown table afterwards and the
effects, in order. -/
def handleDockerEvent (cfg : Config) (w : World) (lastProcessed : CooldownTable)
    (event : Message) : CooldownTable × List Effect :=
  if event.EventType = ContainerEventType ∧ (event.Action = "die" ∨ event.Action = "restart") then
    match w.ContainerInspect event.ActorID with
    | .error err =>
      if err.isErrNotFound then
        (lastProcessed, [Effect.inspect event.ActorID])
      else
        (lastProcessed, [Effect.inspect event.ActorID,
          Effect.log ("Error inspecting container: " ++ err.text ++ "\n")])
    | .ok container =>
      if Contains container.Image cfg.imageToWatch then
        let containerName := TrimPrefix container.Name "/"
        if inCooldown w (lastProcessed containerName) then
          (lastProcessed, [Effect.inspect event.ActorID,
            Effect.log ("Skipping container " ++ containerName ++ " (recently processed)\n")])
        else
          (lastProcessed.set containerName w.clockNow,
            [Effect.inspect event.ActorID, Effect.store containerName w.clockNow,
              Effect.log ("Container " ++ containerName ++ " with image " ++ cfg.imageToWatch
                ++ " stopped. Updating to latest image...\n")]
              ++ restartContainerWithDocker cfg w containerName)
      else
        (lastProcessed, [Effect.inspect event.ActorID])
  else
    (lastProcessed, [])

/-- One delivery of the `select` in `watchDockerEvents`: an event from `messages` or an
error from `errs`. -/
inductive Incoming where
  | message (event : Message)
  | failure (text : String)

/-- One iteration of the loop of `watchDockerEvents`: what is delivered, and the outside
world while it is handled. -/
structure Step where
  world : World
  incoming : Incoming

/-- Go `watchDockerEvents`, on the first deliveries of its two channels (the loop itself
never ends): the cooldown table afterwards and all effects, in order. -/
def watchDockerEvents (cfg : Config) : CooldownTable → List Step → CooldownTable × List Effect
  | lastProcessed, [] => (lastProcessed, [])
  | lastProcessed, st :: rest =>
    match st.incoming with
    | .message event =>
      let r := handleDockerEvent cfg st.world lastProcessed event
      let r2 := watchDockerEvents cfg r.1 rest
      (r2.1, r.2 ++ r2.2)
    | .failure text =>
      let r2 := watchDockerEvents cfg lastProcessed rest
      (r2.1, Effect.log ("Error while watching events: " ++ text ++ "\n") :: r2.2)

/-! ## Observations on a run -/

/-- The external processes of a run, in order: program and argument vector. -/
def execs : List Effect → List (String × List String)
  | [] => []
  | Effect.exec prog argv :: rest => (prog, argv) :: execs rest
  | _ :: rest => execs rest

/-- The times written to the cooldown table under the key `name`, in order. -/
def storesFor (name : String) : List Effect → List Int
  | [] => []
  | Effect.store k t :: rest => if k = name then t :: storesFor name rest else storesFor name rest
  | _ :: rest => storesFor name rest

/-- The filter of line 89: a container event whose action is `die` or `restart`. -/
def accepted (event : Message) : Prop :=
  event.EventType = ContainerEventType ∧ (event.Action = "die" ∨ event.Action = "restart")

instance (event : Message) : Decidable (accepted event) := by
  unfold accepted
  exact inferInstance

/-- An event that reaches line 100: it passes the filter, its inspection returns the
container `c`, and the image of `c` contains the tracked image. -/
def matching (cfg : Config) (w : World) (event : Message) (c : ContainerJSON) : Prop :=
  accepted event ∧ w.ContainerInspect event.ActorID = .ok c ∧
    Contains c.Image cfg.imageToWatch = true

/-- What lines 104-105 leave behind: the table as it was, the inspection and the
skip line. -/
def skipOutcome (lastProcessed : CooldownTable) (id containerName : String) :
    CooldownTable × List Effect :=
  (lastProcessed, [Effect.inspect id,
    Effect.log ("Skipping container " ++ containerName ++ " (recently processed)\n")])

/-- What lines 108-110 leave behind: the table with the new entry, then the inspection,
the map write, the announcement and the restart sequence. -/
def dispatchOutcome (cfg : Config) (w : World) (lastProcessed : CooldownTable)
    (id containerName : String) : CooldownTable × List Effect :=
  (lastProcessed.set containerName w.clockNow,
    [Effect.inspect id, Effect.store containerName w.clockNow,
      Effect.log ("Container " ++ containerName ++ " with image " ++ cfg.imageToWatch
        ++ " stopped. Updating to latest image...\n")]
      ++ restartContainerWithDocker cfg w containerName)

/-- The argument vector of `docker` for a compose subcommand and its arguments. -/
def composeArgv (cfg : Config) (command : String) (args : List String) : List String :=
  ["compose", "-f", cfg.composeFilePath, command] ++ args

/-- The four invocations of the restart sequence for a container name, in order. -/
def restartSequence (cfg : Config) (containerName : String) : List (String × List String) :=
  [("docker", composeArgv cfg "kill" [containerName]),
   ("docker", composeArgv cfg "pull" [containerName]),
   ("docker", composeArgv cfg "rm" ["-f", containerName]),
   ("docker", composeArgv cfg "up" ["-d", containerName])]

/-- The longest initial part of a list that ends at the first element that fails, the
whole list when none fails. -/
def throughFirstFailure {α : Type} (failed : α → Bool) : List α → List α
  | [] => []
  | x :: xs => if failed x then [x] else x :: throughFirstFailure failed xs

/-- Does this invocation fail in the world `w`? -/
def commandFails (w : World) (cmd : String × List String) : Bool :=
  (w.CombinedOutput cmd.1 cmd.2).err.isSome

/-- All clock readings of a sequence of loop iterations, in the order they are taken. -/
def clockReadings : List Step → List Int
  | [] => []
  | st :: rest => st.world.clockSince :: st.world.clockNow :: clockReadings rest

/-! ## Example inputs -/

/-- The configuration of the scenario: tracked image `ghcr.io/org/app`. -/
def exampleConfig : Config :=
  { imageToWatch := "ghcr.io/org/app", composeFilePath := "docker-compose.yml" }

/-- A world in which every inspection returns a container of the given name running
`ghcr.io/org/app:latest`, both clock readings are `t`, and the compose subcommand
`failing` (if any) exits non-zero. -/
def exampleWorld (name : String) (t : Int) (failing : Option String) : World :=
  { ContainerInspect := fun _ => .ok { Name := name, Image := "ghcr.io/org/app:latest" }
    clockSince := t
    clockNow := t
    CombinedOutput := fun _ argv =>
      if failing.isSome ∧ argv.get? 3 = failing then
        { output := "boom", err := some "exit status 1" }
      else { output := "", err := none } }

/-- A world in which every inspection fails with the given error. -/
def failingInspectWorld (e : InspectError) : World :=
  { ContainerInspect := fun _ => .error e
    clockSince := 0
    clockNow := 0
    CombinedOutput := fun _ _ => { output := "", err := none } }

/-- A container event with the given action for the container `c1`. -/
def containerEvent (action : String) : Message :=
  { EventType := "container", Action := action, ActorID := "c1" }

/-- The scenario run: container `app` with image `ghcr.io/org/app:latest`, events at 0,
5 and 65 seconds (`die`, `restart`, `die`), no command failing. -/
def scenarioSteps : List Step :=
  [⟨exampleWorld "/app" 0 none, .message (containerEvent "die")⟩,
   ⟨exampleWorld "/app" 5000000000 none, .message (containerEvent "restart")⟩,
   ⟨exampleWorld "/app" 65000000000 none, .message (containerEvent "die")⟩]

/-! ## Basic facts -/

theorem since_lt_cooldownPeriod_iff (now t : Int) :
    Since now t < cooldownPeriod ↔ now - t < 60 * Second := by
  unfold Since Time.Sub cooldownPeriod Second minDuration maxDuration
  simp only []
  split_ifs <;> omega

theorem inCooldown_eq_true_iff (w : World) (entry : Option Int) :
    inCooldown w entry = true ↔ ∃ t0, entry = some t0 ∧ w.clockSince - t0 < 60 * Second := by
  cases entry with
  | none => simp [inCooldown]
  | some t => simp [inCooldown, since_lt_cooldownPeriod_iff]

theorem inCooldown_eq_false_iff (w : World) (entry : Option Int) :
    inCooldown w entry = false ↔
      (entry = none ∨ ∃ t0, entry = some t0 ∧ 60 * Second ≤ w.clockSince - t0) := by
  cases entry with
  | none => simp [inCooldown]
  | some t => simp [inCooldown, since_lt_cooldownPeriod_iff]

theorem set_same (m : CooldownTable) (n : String) (t : Int) : m.set n t n = some t := by
  simp [CooldownTable.set]

theorem set_other (m : CooldownTable) (n k : String) (t : Int) (h : k ≠ n) :
    m.set n t k = m k := by
  simp [CooldownTable.set, h]

/-- An event that does not pass the filter of line 89 changes nothing and does nothing. -/
theorem handle_not_accepted (cfg : Config) (w : World) (tbl : CooldownTable) (ev : Message)
    (h : ¬ accepted ev) : handleDockerEvent cfg w tbl ev = (tbl, []) := by
  unfold accepted at h
  unfold handleDockerEvent
  rw [if_neg h]

/-- An accepted event whose inspection fails. -/
theorem handle_inspect_error (cfg : Config) (w : World) (tbl : CooldownTable) (ev : Message)
    (e : InspectError) (h : accepted ev) (hins : w.ContainerInspect ev.ActorID = .error e) :
    handleDockerEvent cfg w tbl ev =
      if e.isErrNotFound then (tbl, [Effect.inspect ev.ActorID])
      else (tbl, [Effect.inspect ev.ActorID,
        Effect.log ("Error inspecting container: " ++ e.text ++ "\n")]) := by
  unfold accepted at h
  unfold handleDockerEvent
  rw [if_pos h, hins]

/-- An accepted event whose container does not run the tracked image. -/
theorem handle_no_match (cfg : Config) (w : World) (tbl : CooldownTable) (ev : Message)
    (c : ContainerJSON) (h : accepted ev) (hins : w.ContainerInspect ev.ActorID = .ok c)
    (hno : Contains c.Image cfg.imageToWatch = false) :
    handleDockerEvent cfg w tbl ev = (tbl, [Effect.inspect ev.ActorID]) := by
  unfold accepted at h
  unfold handleDockerEvent
  rw [if_pos h, hins]
  simp [hno]

/-- A matching event is skipped or dispatched, as the cooldown condition decides. -/
theorem handle_matching (cfg : Config) (w : World) (tbl : CooldownTable) (ev : Message)
    (c : ContainerJSON) (h : matching cfg w ev c) :
    handleDockerEvent cfg w tbl ev =
      if inCooldown w (tbl (TrimPrefix c.Name "/")) then
        skipOutcome tbl ev.ActorID (TrimPrefix c.Name "/")
      else dispatchOutcome cfg w tbl ev.ActorID (TrimPrefix c.Name "/") := by
  obtain ⟨hacc, hins, hm⟩ := h
  unfold accepted at hacc
  unfold handleDockerEvent skipOutcome dispatchOutcome
  rw [if_pos hacc, hins]
  simp [hm]

theorem skipOutcome_ne_dispatchOutcome (cfg : Config) (w : World) (tbl tbl2 : CooldownTable)
    (id n : String) : skipOutcome tbl id n ≠ dispatchOutcome cfg w tbl2 id n := by
  intro h
  have h2 := congrArg (fun r => r.2.get? 1) h
  simp [skipOutcome, dispatchOutcome] at h2

/-! ## The cooldown check -/

/-- C1. For a matching event whose container name (after `TrimPrefix`) is `n`, handled
with the clock reading `w.clockSince`: the cooldown check lets the event through exactly
when the table has no entry for `n` or the reading is at least 60 seconds after the entry;
the event is dispatched exactly in that case and skipped exactly otherwise; and once the
entry for `n` is set to `t0`, the event is skipped when fewer than 60 seconds have passed
and dispatched when 60 seconds or more have passed. -/
theorem cooldown_check_sixty_seconds (cfg : Config) (w : World) (tbl : CooldownTable)
    (ev : Message) (c : ContainerJSON) (n : String)
    (hm : matching cfg w ev c) (hn : TrimPrefix c.Name "/" = n) :
    (inCooldown w (tbl n) = false ↔
      (tbl n = none ∨ ∃ t0, tbl n = some t0 ∧ 60 * Second ≤ w.clockSince - t0)) ∧
    (handleDockerEvent cfg w tbl ev = dispatchOutcome cfg w tbl ev.ActorID n ↔
      (tbl n = none ∨ ∃ t0, tbl n = some t0 ∧ 60 * Second ≤ w.clockSince - t0)) ∧
    (handleDockerEvent cfg w tbl ev = skipOutcome tbl ev.ActorID n ↔
      ∃ t0, tbl n = some t0 ∧ w.clockSince - t0 < 60 * Second) ∧
    (∀ t0 : Int, w.clockSince - t0 < 60 * Second →
      handleDockerEvent cfg w (tbl.set n t0) ev = skipOutcome (tbl.set n t0) ev.ActorID n) ∧
    (∀ t0 : Int, 60 * Second ≤ w.clockSince - t0 →
      handleDockerEvent cfg w (tbl.set n t0) ev =
        dispatchOutcome cfg w (tbl.set n t0) ev.ActorID n) := by
  subst hn
  refine ⟨inCooldown_eq_false_iff w _, ?_, ?_, ?_, ?_⟩
  · rw [handle_matching cfg w tbl ev c hm, ← inCooldown_eq_false_iff]
    cases hc : inCooldown w (tbl (TrimPrefix c.Name "/"))
    · simp
    · simpa using skipOutcome_ne_dispatchOutcome cfg w tbl tbl ev.ActorID _
  · rw [handle_matching cfg w tbl ev c hm, ← inCooldown_eq_true_iff]
    cases hc : inCooldown w (tbl (TrimPrefix c.Name "/"))
    · simpa using (skipOutcome_ne_dispatchOutcome cfg w tbl tbl ev.ActorID _).symm
    · simp
  · intro t0 h
    rw [handle_matching cfg w _ ev c hm]
    have : inCooldown w ((tbl.set (TrimPrefix c.Name "/") t0) (TrimPrefix c.Name "/")) = true :=
      (inCooldown_eq_true_iff w _).2 ⟨t0, set_same _ _ _, h⟩
    rw [this]; rfl
  · intro t0 h
    rw [handle_matching cfg w _ ev c hm]
    have : inCooldown w ((tbl.set (TrimPrefix c.Name "/") t0) (TrimPrefix c.Name "/")) = false :=
      (inCooldown_eq_false_iff w _).2 (Or.inr ⟨t0, set_same _ _ _, h⟩)
    rw [this]; rfl

/-- C1 at the boundary: with the entry for `app` set at time 0, a `die` event handled
59.999999999 seconds later is skipped and one handled exactly 60 seconds later is
dispatched. -/
theorem cooldown_check_sixty_seconds_witness :
    (handleDockerEvent exampleConfig (exampleWorld "/app" 59999999999 none)
        (emptyTable.set "app" 0) (containerEvent "die")).2 =
      [Effect.inspect "c1", Effect.log "Skipping container app (recently processed)\n"] ∧
    (handleDockerEvent exampleConfig (exampleWorld "/app" 60000000000 none)
        (emptyTable.set "app" 0) (containerEvent "die")).2.take 4 =
      [Effect.inspect "c1", Effect.store "app" 60000000000,
        Effect.log
          "Container app with image ghcr.io/org/app stopped. Updating to latest image...\n",
        Effect.exec "docker" ["compose", "-f", "docker-compose.yml", "kill", "app"]] := by
  have hm : ∀ t, matching exampleConfig (exampleWorld "/app" t none) (containerEvent "die")
      { Name := "/app", Image := "ghcr.io/org/app:latest" } :=
    fun t => ⟨by decide, rfl, by decide⟩
  have h1 := (cooldown_check_sixty_seconds exampleConfig (exampleWorld "/app" 59999999999 none)
    emptyTable (containerEvent "die") _ "app" (hm _) (by decide)).2.2.2.1 0 (by decide)
  have h2 := (cooldown_check_sixty_seconds exampleConfig (exampleWorld "/app" 60000000000 none)
    emptyTable (containerEvent "die") _ "app" (hm _) (by decide)).2.2.2.2 0 (by decide)
  rw [h1, h2]
  constructor <;> decide

/-! ## The event filter and the inspection -/

/-- C4. An event whose type is not the container event type, or whose action is neither
`die` nor `restart`, is ignored: the handler inspects nothing, runs nothing, logs nothing
and returns the cooldown table it was given. -/
theorem ignored_event_does_nothing (cfg : Config) (w : World) (tbl : CooldownTable)
    (ev : Message)
    (h : ev.EventType ≠ ContainerEventType ∨ (ev.Action ≠ "die" ∧ ev.Action ≠ "restart")) :
    handleDockerEvent cfg w tbl ev = (tbl, []) := by
  apply handle_not_accepted
  rintro ⟨ht, ha⟩
  rcases h with h | ⟨h1, h2⟩
  · exact h ht
  · rcases ha with ha | ha
    · exact h1 ha
    · exact h2 ha

/-- C4 on the examples: container events `stop`, `kill`, `start` and `Die`, and a `die`
on an image or a network event, all leave no trace. -/
theorem ignored_event_does_nothing_witness :
    (∀ a ∈ ["stop", "kill", "start", "Die"],
      (handleDockerEvent exampleConfig (exampleWorld "/app" 0 none) emptyTable
        (containerEvent a)).2 = []) ∧
    (∀ ty ∈ ["image", "network"],
      (handleDockerEvent exampleConfig (exampleWorld "/app" 0 none) emptyTable
        { EventType := ty, Action := "die", ActorID := "c1" }).2 = []) := by
  constructor
  · intro a ha
    rw [ignored_event_does_nothing exampleConfig _ emptyTable (containerEvent a)
      (Or.inr (by
        simp only [List.mem_cons, List.mem_singleton, List.not_mem_nil, or_false] at ha
        rcases ha with rfl | rfl | rfl | rfl <;> decide))]
  · intro ty hty
    rw [ignored_event_does_nothing exampleConfig _ emptyTable
      { EventType := ty, Action := "die", ActorID := "c1" }
      (Or.inl (by
        simp only [List.mem_cons, List.mem_singleton, List.not_mem_nil, or_false] at hty
        rcases hty with rfl | rfl <;> decide))]

/-- C8. An accepted event whose inspection returns an error is dropped: the table is
returned as it was and no external process is run. The only action besides the inspection
is one log line, written exactly when the error is not a not-found error. -/
theorem inspect_error_drops_event (cfg : Config) (w : World) (tbl : CooldownTable)
    (ev : Message) (e : InspectError) (hacc : accepted ev)
    (hins : w.ContainerInspect ev.ActorID = .error e) :
    (handleDockerEvent cfg w tbl ev).1 = tbl ∧
    execs (handleDockerEvent cfg w tbl ev).2 = [] ∧
    (∀ n, storesFor n (handleDockerEvent cfg w tbl ev).2 = []) ∧
    (e.isErrNotFound = true →
      (handleDockerEvent cfg w tbl ev).2 = [Effect.inspect ev.ActorID]) ∧
    (e.isErrNotFound = false →
      (handleDockerEvent cfg w tbl ev).2 = [Effect.inspect ev.ActorID,
        Effect.log ("Error inspecting container: " ++ e.text ++ "\n")]) := by
  rw [handle_inspect_error cfg w tbl ev e hacc hins]
  cases e.isErrNotFound <;> simp [execs, storesFor]

/-- C8 on two errors for a `die` event: a not-found error leaves only the inspection, a
refused connection leaves the inspection and one log line. -/
theorem inspect_error_drops_event_witness :
    handleDockerEvent exampleConfig
        (failingInspectWorld { text := "No such container: c1", isErrNotFound := true })
        emptyTable (containerEvent "die") = (emptyTable, [Effect.inspect "c1"]) ∧
    (handleDockerEvent exampleConfig
        (failingInspectWorld { text := "connection refused", isErrNotFound := false })
        emptyTable (containerEvent "restart")).2 =
      [Effect.inspect "c1", Effect.log "Error inspecting container: connection refused\n"] := by
  have h1 := inspect_error_drops_event exampleConfig
    (failingInspectWorld { text := "No such container: c1", isErrNotFound := true })
    emptyTable (containerEvent "die") _ (by decide) rfl
  have h2 := inspect_error_drops_event exampleConfig
    (failingInspectWorld { text := "connection refused", isErrNotFound := false })
    emptyTable (containerEvent "restart") _ (by decide) rfl
  refine ⟨Prod.ext h1.1 (h1.2.2.2.1 rfl), ?_⟩
  rw [h2.2.2.2.2 rfl]
  decide

/-! ## The image match -/

theorem hasPrefixList_iff (s pre : List Char) : hasPrefixList s pre = true ↔ pre <+: s := by
  unfold hasPrefixList
  exact List.isPrefixOf_iff_prefix

theorem containsList_iff (s substr : List Char) :
    containsList s substr = true ↔ substr <:+: s := by
  induction s with
  | nil => simp [containsList, hasPrefixList_iff]
  | cons c cs ih =>
    simp only [containsList, Bool.or_eq_true, hasPrefixList_iff, ih]
    exact List.infix_cons_iff.symm

theorem Contains_iff (s substr : String) :
    Contains s substr = true ↔ ∃ a b : String, s = a ++ substr ++ b := by
  unfold Contains
  rw [containsList_iff]
  constructor
  · rintro ⟨a, b, h⟩
    refine ⟨String.mk a, String.mk b, ?_⟩
    apply String.ext
    simp [String.data_append, h]
  · rintro ⟨a, b, h⟩
    refine ⟨a.data, b.data, ?_⟩
    rw [h]
    simp [String.data_append]

/-- C5. The match predicate of line 99 holds exactly when the tracked image occurs as a
contiguous piece of the resolved image reference, so it holds for every reference when the
tracked image is empty; and an accepted, inspected event whose reference does not contain
the tracked image leaves the table as it was and does nothing beyond the inspection,
while one that does is skipped or dispatched as the cooldown check decides. -/
theorem image_match_is_substring :
    (∀ img tag : String, Contains img tag = true ↔ ∃ a b : String, img = a ++ tag ++ b) ∧
    (∀ img : String, Contains img "" = true) ∧
    (∀ (cfg : Config) (w : World) (tbl : CooldownTable) (ev : Message) (c : ContainerJSON),
      accepted ev → w.ContainerInspect ev.ActorID = .ok c →
      Contains c.Image cfg.imageToWatch = false →
      handleDockerEvent cfg w tbl ev = (tbl, [Effect.inspect ev.ActorID])) ∧
    (∀ (cfg : Config) (w : World) (tbl : CooldownTable) (ev : Message) (c : ContainerJSON),
      accepted ev → w.ContainerInspect ev.ActorID = .ok c →
      Contains c.Image cfg.imageToWatch = true →
      handleDockerEvent cfg w tbl ev =
        if inCooldown w (tbl (TrimPrefix c.Name "/")) then
          skipOutcome tbl ev.ActorID (TrimPrefix c.Name "/")
        else dispatchOutcome cfg w tbl ev.ActorID (TrimPrefix c.Name "/")) := by
  refine ⟨Contains_iff, ?_, ?_, ?_⟩
  · intro img
    rw [Contains_iff]
    exact ⟨"", img, by apply String.ext; simp [String.data_append]⟩
  · intro cfg w tbl ev c hacc hins hno
    exact handle_no_match cfg w tbl ev c hacc hins hno
  · intro cfg w tbl ev c hacc hins hyes
    exact handle_matching cfg w tbl ev c ⟨hacc, hins, hyes⟩

/-- C5 on examples: a registry-prefixed, digest-suffixed reference matches the tracked
image `ghcr.io/org/app`, and a `die` event for a container running another image leaves
only the inspection. -/
theorem image_match_is_substring_witness :
    Contains "mirror.example.com/ghcr.io/org/app@sha256:0123" "ghcr.io/org/app" = true ∧
    Contains "ghcr.io/org/app:latest" "ghcr.io/org/app" = true ∧
    Contains "ghcr.io/org/ap" "ghcr.io/org/app" = false ∧
    handleDockerEvent { imageToWatch := "ghcr.io/org/other", composeFilePath := "c.yml" }
        (exampleWorld "/app" 0 none) emptyTable (containerEvent "die") =
      (emptyTable, [Effect.inspect "c1"]) := by
  refine ⟨?_, ?_, by decide, ?_⟩
  · exact (image_match_is_substring.1 _ _).2
      ⟨"mirror.example.com/", "@sha256:0123", by decide⟩
  · exact (image_match_is_substring.1 _ _).2 ⟨"", ":latest", by decide⟩
  · exact image_match_is_substring.2.2.1 _ (exampleWorld "/app" 0 none) emptyTable
      (containerEvent "die") _ (by decide) rfl (by decide)

/-! ## The command executor and the restart sequence -/

theorem execute_of_success (cfg : Config) (w : World) (command : String) (args : List String)
    (h : (w.CombinedOutput "docker" (composeArgv cfg command args)).err = none) :
    executeDockerComposeCommand cfg w command args =
      ([Effect.exec "docker" (composeArgv cfg command args),
        Effect.log ("Command 'docker compose " ++ command ++ "' succeeded")], none) := by
  unfold composeArgv at h
  unfold executeDockerComposeCommand composeArgv
  simp only []
  rw [h]

theorem execute_of_failure (cfg : Config) (w : World) (command : String) (args : List String)
    (e : String)
    (h : (w.CombinedOutput "docker" (composeArgv cfg command args)).err = some e) :
    executeDockerComposeCommand cfg w command args =
      ([Effect.exec "docker" (composeArgv cfg command args)],
        some ("command 'docker compose " ++ command ++ "' failed with output: "
          ++ (w.CombinedOutput "docker" (composeArgv cfg command args)).output
          ++ ", error: " ++ e)) := by
  unfold composeArgv at h
  unfold executeDockerComposeCommand composeArgv
  simp only []
  rw [h]

theorem execs_append (xs ys : List Effect) : execs (xs ++ ys) = execs xs ++ execs ys := by
  induction xs with
  | nil => rfl
  | cons x xs ih => cases x <;> simp [execs, ih]

theorem storesFor_append (n : String) (xs ys : List Effect) :
    storesFor n (xs ++ ys) = storesFor n xs ++ storesFor n ys := by
  induction xs with
  | nil => rfl
  | cons x xs ih =>
    cases x <;> simp [storesFor, ih]
    split_ifs <;> simp

/-- The processes run by the restart sequence: the four invocations, up to and including
the first that fails. -/
theorem execs_restart (cfg : Config) (w : World) (n : String) :
    execs (restartContainerWithDocker cfg w n) =
      throughFirstFailure (commandFails w) (restartSequence cfg n) := by
  unfold restartContainerWithDocker restartSequence
  rcases h1 : (w.CombinedOutput "docker" (composeArgv cfg "kill" [n])).err with _ | e1
  swap
  · rw [execute_of_failure cfg w _ _ e1 h1]
    simp [execs, throughFirstFailure, commandFails, h1]
  rw [execute_of_success cfg w _ _ h1]
  rcases h2 : (w.CombinedOutput "docker" (composeArgv cfg "pull" [n])).err with _ | e2
  swap
  · rw [execute_of_failure cfg w _ _ e2 h2]
    simp [execs, throughFirstFailure, commandFails, h1, h2]
  rw [execute_of_success cfg w _ _ h2]
  rcases h3 : (w.CombinedOutput "docker" (composeArgv cfg "rm" ["-f", n])).err with _ | e3
  swap
  · rw [execute_of_failure cfg w _ _ e3 h3]
    simp [execs, throughFirstFailure, commandFails, h1, h2, h3]
  rw [execute_of_success cfg w _ _ h3]
  rcases h4 : (w.CombinedOutput "docker" (composeArgv cfg "up" ["-d", n])).err with _ | e4
  swap
  · rw [execute_of_failure cfg w _ _ e4 h4]
    simp [execs, throughFirstFailure, commandFails, h1, h2, h3, h4]
  rw [execute_of_success cfg w _ _ h4]
  simp [execs, throughFirstFailure, commandFails, h1, h2, h3, h4]

theorem storesFor_restart (cfg : Config) (w : World) (n k : String) :
    storesFor k (restartContainerWithDocker cfg w n) = [] := by
  unfold restartContainerWithDocker
  rcases h1 : (w.CombinedOutput "docker" (composeArgv cfg "kill" [n])).err with _ | e1
  swap
  · rw [execute_of_failure cfg w _ _ e1 h1]
    simp [storesFor]
  rw [execute_of_success cfg w _ _ h1]
  rcases h2 : (w.CombinedOutput "docker" (composeArgv cfg "pull" [n])).err with _ | e2
  swap
  · rw [execute_of_failure cfg w _ _ e2 h2]
    simp [storesFor]
  rw [execute_of_success cfg w _ _ h2]
  rcases h3 : (w.CombinedOutput "docker" (composeArgv cfg "rm" ["-f", n])).err with _ | e3
  swap
  · rw [execute_of_failure cfg w _ _ e3 h3]
    simp [storesFor]
  rw [execute_of_success cfg w _ _ h3]
  rcases h4 : (w.CombinedOutput "docker" (composeArgv cfg "up" ["-d", n])).err with _ | e4
  swap
  · rw [execute_of_failure cfg w _ _ e4 h4]
    simp [storesFor]
  rw [execute_of_success cfg w _ _ h4]
  simp [storesFor]

theorem throughFirstFailure_initial {α : Type} (failed : α → Bool) (xs : List α) :
    throughFirstFailure failed xs <+: xs := by
  induction xs with
  | nil => exact List.prefix_refl _
  | cons x xs ih =>
    unfold throughFirstFailure
    split_ifs
    · exact ⟨xs, rfl⟩
    · exact (List.prefix_cons_inj x).2 ih

theorem throughFirstFailure_dropLast {α : Type} (failed : α → Bool) (xs : List α) :
    ∀ x ∈ (throughFirstFailure failed xs).dropLast, failed x = false := by
  induction xs with
  | nil => simp [throughFirstFailure]
  | cons y ys ih =>
    intro x hx
    unfold throughFirstFailure at hx
    split_ifs at hx with hy
    · simp at hx
    · cases hys : throughFirstFailure failed ys with
      | nil => rw [hys] at hx; simp at hx
      | cons z zs =>
        rw [hys, List.dropLast_cons₂] at hx
        rcases List.mem_cons.1 hx with rfl | hx2
        · simpa using hy
        · exact ih x (by rw [hys]; exact hx2)

theorem throughFirstFailure_of_all {α : Type} (failed : α → Bool) (xs : List α)
    (h : ∀ x ∈ xs, failed x = false) : throughFirstFailure failed xs = xs := by
  induction xs with
  | nil => rfl
  | cons y ys ih =>
    unfold throughFirstFailure
    rw [h y (List.mem_cons_self _ _)]
    simp only [Bool.false_eq_true, if_false]
    rw [ih (fun x hx => h x (List.mem_cons_of_mem _ hx))]

theorem restartSequence_nodup (cfg : Config) (n : String) : (restartSequence cfg n).Nodup := by
  simp [restartSequence, composeArgv]

/-- C7. `executeDockerComposeCommand(c, args...)` launches exactly one process, the
program `docker`, with the argument vector `compose`, `-f`, the configured compose file
path, `c`, then `args` in their order, which has `4 + len(args)` entries; it is the first
thing the function does. Hence the processes of a restart sequence for `n` are an initial
part of the four vectors for `kill n`, `pull n`, `rm -f n` and `up -d n`, and all four of
them when no command fails. -/
theorem compose_argument_vector (cfg : Config) (w : World) (c n : String)
    (args : List String) :
    execs (executeDockerComposeCommand cfg w c args).1 =
      [("docker", ["compose", "-f", cfg.composeFilePath, c] ++ args)] ∧
    (executeDockerComposeCommand cfg w c args).1.head? =
      some (Effect.exec "docker" (["compose", "-f", cfg.composeFilePath, c] ++ args)) ∧
    (["compose", "-f", cfg.composeFilePath, c] ++ args).length = 4 + args.length ∧
    execs (restartContainerWithDocker cfg w n) <+:
      [("docker", ["compose", "-f", cfg.composeFilePath, "kill", n]),
       ("docker", ["compose", "-f", cfg.composeFilePath, "pull", n]),
       ("docker", ["compose", "-f", cfg.composeFilePath, "rm", "-f", n]),
       ("docker", ["compose", "-f", cfg.composeFilePath, "up", "-d", n])] ∧
    ((∀ argv, (w.CombinedOutput "docker" argv).err = none) →
      execs (restartContainerWithDocker cfg w n) =
        [("docker", ["compose", "-f", cfg.composeFilePath, "kill", n]),
         ("docker", ["compose", "-f", cfg.composeFilePath, "pull", n]),
         ("docker", ["compose", "-f", cfg.composeFilePath, "rm", "-f", n]),
         ("docker", ["compose", "-f", cfg.composeFilePath, "up", "-d", n])]) := by
  refine ⟨?_, ?_, ?_, ?_, ?_⟩
  · unfold executeDockerComposeCommand
    simp only []
    split <;> simp [execs]
  · unfold executeDockerComposeCommand
    simp only []
    split <;> simp
  · simp only [List.length_append, List.length_cons, List.length_nil]
  · rw [execs_restart]
    exact throughFirstFailure_initial _ _
  · intro hok
    rw [execs_restart]
    simp [restartSequence, throughFirstFailure, commandFails, hok, composeArgv]

/-- C7 on an example: with the compose file `docker-compose.yml`, `rm -f app` is launched
as `docker compose -f docker-compose.yml rm -f app`, and a restart of `app` in which no
command fails launches the four expected vectors. -/
theorem compose_argument_vector_witness :
    execs (executeDockerComposeCommand exampleConfig (exampleWorld "/app" 0 none) "rm"
        ["-f", "app"]).1 =
      [("docker", ["compose", "-f", "docker-compose.yml", "rm", "-f", "app"])] ∧
    execs (restartContainerWithDocker exampleConfig (exampleWorld "/app" 0 none) "app") =
      [("docker", ["compose", "-f", "docker-compose.yml", "kill", "app"]),
       ("docker", ["compose", "-f", "docker-compose.yml", "pull", "app"]),
       ("docker", ["compose", "-f", "docker-compose.yml", "rm", "-f", "app"]),
       ("docker", ["compose", "-f", "docker-compose.yml", "up", "-d", "app"])] :=
  ⟨(compose_argument_vector exampleConfig (exampleWorld "/app" 0 none) "rm" "app"
      ["-f", "app"]).1,
    (compose_argument_vector exampleConfig (exampleWorld "/app" 0 none) "rm" "app"
      ["-f", "app"]).2.2.2.2 (fun _ => by simp [exampleWorld])⟩

/-- C2. For every container name and every outcome of the external commands, the
processes launched by `restartContainerWithDocker` are the four invocations `kill n`,
`pull n`, `rm -f n`, `up -d n`, in that order, up to and including the first one that
fails (all four when none fails): an initial part of the sequence, without repetition, in
which every invocation but the last succeeded, and just `kill n` when `kill` fails. -/
theorem restart_stops_at_first_failure (cfg : Config) (w : World) (n : String) :
    execs (restartContainerWithDocker cfg w n) =
      throughFirstFailure (commandFails w) (restartSequence cfg n) ∧
    execs (restartContainerWithDocker cfg w n) <+: restartSequence cfg n ∧
    (execs (restartContainerWithDocker cfg w n)).Nodup ∧
    (∀ cmd ∈ (execs (restartContainerWithDocker cfg w n)).dropLast, commandFails w cmd = false) ∧
    ((∀ cmd ∈ restartSequence cfg n, commandFails w cmd = false) →
      execs (restartContainerWithDocker cfg w n) = restartSequence cfg n) ∧
    (commandFails w ("docker", composeArgv cfg "kill" [n]) = true →
      execs (restartContainerWithDocker cfg w n) = [("docker", composeArgv cfg "kill" [n])]) := by
  have hpre := throughFirstFailure_initial (commandFails w) (restartSequence cfg n)
  rw [execs_restart]
  refine ⟨rfl, hpre, ?_, ?_, ?_, ?_⟩
  · exact (restartSequence_nodup cfg n).sublist hpre.sublist
  · intro cmd hcmd
    exact throughFirstFailure_dropLast (commandFails w) (restartSequence cfg n) cmd hcmd
  · intro hall
    exact throughFirstFailure_of_all (commandFails w) (restartSequence cfg n) hall
  · intro hkill
    simp [restartSequence, throughFirstFailure, hkill]

/-- C2 on two examples for the container `app`: when `kill` fails only `kill` is
launched, and when `rm` fails `kill`, `pull` and `rm` are launched and `up` is not. -/
theorem restart_stops_at_first_failure_witness :
    execs (restartContainerWithDocker exampleConfig (exampleWorld "/app" 0 (some "kill")) "app")
      = [("docker", ["compose", "-f", "docker-compose.yml", "kill", "app"])] ∧
    execs (restartContainerWithDocker exampleConfig (exampleWorld "/app" 0 (some "rm")) "app")
      = [("docker", ["compose", "-f", "docker-compose.yml", "kill", "app"]),
         ("docker", ["compose", "-f", "docker-compose.yml", "pull", "app"]),
         ("docker", ["compose", "-f", "docker-compose.yml", "rm", "-f", "app"])] := by
  constructor
  · exact (restart_stops_at_first_failure exampleConfig (exampleWorld "/app" 0 (some "kill"))
      "app").2.2.2.2.2 (by decide)
  · rw [(restart_stops_at_first_failure exampleConfig (exampleWorld "/app" 0 (some "rm"))
      "app").1]
    decide

/-! ## Runs of the watcher loop -/

theorem storesFor_dispatch (cfg : Config) (w : World) (tbl : CooldownTable)
    (id k n : String) :
    storesFor n (dispatchOutcome cfg w tbl id k).2 = if k = n then [w.clockNow] else [] := by
  unfold dispatchOutcome
  simp only []
  rw [storesFor_append, storesFor_restart, List.append_nil]
  simp only [storesFor]

theorem execs_dispatch (cfg : Config) (w : World) (tbl : CooldownTable) (id k : String) :
    execs (dispatchOutcome cfg w tbl id k).2 = execs (restartContainerWithDocker cfg w k) := by
  unfold dispatchOutcome
  simp [execs_append, execs]

/-- What one call of the handler does to the entry of `n`: either it writes nothing under
`n` and leaves the entry alone, or it writes the reading `clockNow` once, and then any
entry there was is at least the cooldown period older than the reading `clockSince`. -/
theorem handle_stores (cfg : Config) (w : World) (tbl : CooldownTable) (ev : Message)
    (n : String) :
    (storesFor n (handleDockerEvent cfg w tbl ev).2 = [] ∧
      (handleDockerEvent cfg w tbl ev).1 n = tbl n) ∨
    (storesFor n (handleDockerEvent cfg w tbl ev).2 = [w.clockNow] ∧
      (handleDockerEvent cfg w tbl ev).1 n = some w.clockNow ∧
      ∀ t0, tbl n = some t0 → t0 + cooldownPeriod ≤ w.clockSince) := by
  by_cases hacc : accepted ev
  swap
  · rw [handle_not_accepted cfg w tbl ev hacc]
    exact Or.inl ⟨rfl, rfl⟩
  rcases hins : w.ContainerInspect ev.ActorID with e | c
  · rw [handle_inspect_error cfg w tbl ev e hacc hins]
    cases e.isErrNotFound <;> exact Or.inl ⟨by simp [storesFor], by simp⟩
  cases hc : Contains c.Image cfg.imageToWatch
  · rw [handle_no_match cfg w tbl ev c hacc hins hc]
    exact Or.inl ⟨rfl, rfl⟩
  rw [handle_matching cfg w tbl ev c ⟨hacc, hins, hc⟩]
  cases hcool : inCooldown w (tbl (TrimPrefix c.Name "/"))
  swap
  · exact Or.inl ⟨by simp [skipOutcome, storesFor], by simp [skipOutcome]⟩
  simp only [Bool.false_eq_true, if_false]
  by_cases hk : TrimPrefix c.Name "/" = n
  · right
    subst hk
    refine ⟨by rw [storesFor_dispatch]; simp, by simp [dispatchOutcome, set_same], ?_⟩
    intro t0 ht0
    rcases (inCooldown_eq_false_iff w _).1 hcool with h | ⟨t1, h1, h2⟩
    · rw [h] at ht0; cases ht0
    · rw [h1] at ht0
      cases ht0
      unfold cooldownPeriod
      omega
  · left
    refine ⟨by rw [storesFor_dispatch]; simp [hk], ?_⟩
    simp only [dispatchOutcome]
    exact set_other _ _ _ _ (fun h => hk h.symm)

theorem count_kill_restart (cfg : Config) (w : World) (k n : String) :
    (execs (restartContainerWithDocker cfg w k)).count ("docker", composeArgv cfg "kill" [n]) =
      if k = n then 1 else 0 := by
  rw [execs_restart]
  have hrest : ∀ xs : List (String × List String),
      xs <+: [("docker", composeArgv cfg "pull" [k]), ("docker", composeArgv cfg "rm" ["-f", k]),
        ("docker", composeArgv cfg "up" ["-d", k])] →
      xs.count ("docker", composeArgv cfg "kill" [n]) = 0 := by
    intro xs hxs
    have := hxs.sublist.count_le ("docker", composeArgv cfg "kill" [n])
    have h0 : List.count ("docker", composeArgv cfg "kill" [n])
        [("docker", composeArgv cfg "pull" [k]), ("docker", composeArgv cfg "rm" ["-f", k]),
          ("docker", composeArgv cfg "up" ["-d", k])] = 0 := by
      simp [composeArgv, List.count_cons]
    omega
  unfold restartSequence throughFirstFailure
  split_ifs with hf hkn hkn
  · subst hkn; simp
  · simp [List.count_cons, composeArgv, hkn]
  · subst hkn
    rw [List.count_cons_self, hrest _ (throughFirstFailure_initial _ _)]
  · rw [List.count_cons, hrest _ (throughFirstFailure_initial _ _)]
    simp [composeArgv, hkn]

/-- One call of the handler launches `kill n` exactly as often as it writes under `n`. -/
theorem handle_count_kill (cfg : Config) (w : World) (tbl : CooldownTable) (ev : Message)
    (n : String) :
    (execs (handleDockerEvent cfg w tbl ev).2).count ("docker", composeArgv cfg "kill" [n]) =
      (storesFor n (handleDockerEvent cfg w tbl ev).2).length := by
  by_cases hacc : accepted ev
  swap
  · rw [handle_not_accepted cfg w tbl ev hacc]; rfl
  rcases hins : w.ContainerInspect ev.ActorID with e | c
  · rw [handle_inspect_error cfg w tbl ev e hacc hins]
    cases e.isErrNotFound <;> simp [storesFor, execs]
  cases hc : Contains c.Image cfg.imageToWatch
  · rw [handle_no_match cfg w tbl ev c hacc hins hc]; rfl
  rw [handle_matching cfg w tbl ev c ⟨hacc, hins, hc⟩]
  cases hcool : inCooldown w (tbl (TrimPrefix c.Name "/"))
  swap
  · simp [skipOutcome, storesFor, execs]
  simp only [Bool.false_eq_true, if_false]
  rw [execs_dispatch, storesFor_dispatch, count_kill_restart]
  split_ifs <;> rfl

theorem watch_cons_message (cfg : Config) (tbl : CooldownTable) (w : World) (ev : Message)
    (rest : List Step) :
    watchDockerEvents cfg tbl (⟨w, .message ev⟩ :: rest) =
      ((watchDockerEvents cfg (handleDockerEvent cfg w tbl ev).1 rest).1,
        (handleDockerEvent cfg w tbl ev).2 ++
          (watchDockerEvents cfg (handleDockerEvent cfg w tbl ev).1 rest).2) := by
  simp [watchDockerEvents]

theorem watch_cons_failure (cfg : Config) (tbl : CooldownTable) (w : World) (text : String)
    (rest : List Step) :
    watchDockerEvents cfg tbl (⟨w, .failure text⟩ :: rest) =
      ((watchDockerEvents cfg tbl rest).1,
        Effect.log ("Error while watching events: " ++ text ++ "\n") ::
          (watchDockerEvents cfg tbl rest).2) := by
  simp [watchDockerEvents]

theorem cooldownPeriod_nonneg : 0 ≤ cooldownPeriod := by
  unfold cooldownPeriod Second
  omega

/-- Along a run in which every step reads `clockSince` no later than `clockNow`, the
times written under `n` are pairwise at least the cooldown period apart, and each is at
least the cooldown period after the entry the run started with. -/
theorem watch_stores_gap (cfg : Config) (n : String) (steps : List Step) :
    ∀ tbl : CooldownTable, (∀ st ∈ steps, st.world.clockSince ≤ st.world.clockNow) →
      (storesFor n (watchDockerEvents cfg tbl steps).2).Pairwise
          (fun a b => cooldownPeriod ≤ b - a) ∧
        ∀ t0, tbl n = some t0 → ∀ m ∈ storesFor n (watchDockerEvents cfg tbl steps).2,
          t0 + cooldownPeriod ≤ m := by
  induction steps with
  | nil =>
    intro tbl _
    simp [watchDockerEvents, storesFor]
  | cons st rest ih =>
    intro tbl hclk
    have hst := hclk st (List.mem_cons_self _ _)
    have hrest : ∀ s ∈ rest, s.world.clockSince ≤ s.world.clockNow :=
      fun s hs => hclk s (List.mem_cons_of_mem _ hs)
    obtain ⟨w, inc⟩ := st
    cases inc with
    | failure text =>
      rw [watch_cons_failure]
      simp only [storesFor]
      exact ih tbl hrest
    | message ev =>
      rw [watch_cons_message]
      simp only [storesFor_append]
      obtain ⟨ihp, ihm⟩ := ih (handleDockerEvent cfg w tbl ev).1 hrest
      rcases handle_stores cfg w tbl ev n with ⟨h1, h2⟩ | ⟨h1, h2, h3⟩
      · rw [h1, List.nil_append]
        refine ⟨ihp, ?_⟩
        intro t0 ht0 m hm
        exact ihm t0 (by rw [h2]; exact ht0) m hm
      · rw [h1, List.singleton_append]
        have hc := cooldownPeriod_nonneg
        simp only at hst
        refine ⟨List.pairwise_cons.2 ⟨?_, ihp⟩, ?_⟩
        · intro m hm
          have := ihm w.clockNow h2 m hm
          omega
        · intro t0 ht0 m hm
          have h4 := h3 t0 ht0
          rcases List.mem_cons.1 hm with rfl | hm2
          · omega
          · have := ihm w.clockNow h2 m hm2
            omega

theorem watch_count_kill (cfg : Config) (n : String) (steps : List Step) :
    ∀ tbl : CooldownTable,
      (execs (watchDockerEvents cfg tbl steps).2).count ("docker", composeArgv cfg "kill" [n]) =
        (storesFor n (watchDockerEvents cfg tbl steps).2).length := by
  induction steps with
  | nil => intro tbl; rfl
  | cons st rest ih =>
    intro tbl
    obtain ⟨w, inc⟩ := st
    cases inc with
    | failure text =>
      rw [watch_cons_failure]
      simp only [storesFor, execs]
      exact ih tbl
    | message ev =>
      rw [watch_cons_message]
      simp only [storesFor_append, execs_append, List.count_append, List.length_append]
      rw [handle_count_kill, ih]

/-- A run that writes nothing under `n` leaves the entry of `n` as it was. -/
theorem watch_no_store (cfg : Config) (n : String) (steps : List Step) :
    ∀ tbl : CooldownTable, storesFor n (watchDockerEvents cfg tbl steps).2 = [] →
      (watchDockerEvents cfg tbl steps).1 n = tbl n := by
  induction steps with
  | nil => intro tbl _; rfl
  | cons st rest ih =>
    intro tbl h
    obtain ⟨w, inc⟩ := st
    cases inc with
    | failure text =>
      rw [watch_cons_failure] at h ⊢
      simp only [storesFor] at h
      exact ih tbl h
    | message ev =>
      rw [watch_cons_message] at h ⊢
      simp only [storesFor_append, List.append_eq_nil] at h
      rcases handle_stores cfg w tbl ev n with ⟨_, h2⟩ | ⟨h1, _, _⟩
      · simp only
        rw [ih _ h.2, h2]
      · rw [h1] at h
        exact absurd h.1 (by simp)

theorem clockReadings_since_le_now (steps : List Step)
    (h : (clockReadings steps).Pairwise (fun a b => a ≤ b)) :
    ∀ st ∈ steps, st.world.clockSince ≤ st.world.clockNow := by
  induction steps with
  | nil => intro st hst; cases hst
  | cons s rest ih =>
    intro st hst
    simp only [clockReadings, List.pairwise_cons] at h
    rcases List.mem_cons.1 hst with rfl | hst2
    · exact h.1 _ (List.mem_cons_self _ _)
    · exact ih h.2.2 st hst2

/-- C3. Along every run of the watcher loop whose clock readings never decrease, from
any cooldown table, and for every container name `n`: the times written under `n` (one per
restart sequence started for `n`, as the count of `kill n` launches shows) are pairwise at
least 60 seconds apart. In particular two matching `die` events for the same name, the
second handled at most one second after the first, on the empty table: the first is
dispatched and the second skipped, so there is one write and one restart sequence. -/
theorem restarts_sixty_seconds_apart :
    (∀ (cfg : Config) (tbl : CooldownTable) (steps : List Step) (n : String),
      (clockReadings steps).Pairwise (fun a b => a ≤ b) →
      (storesFor n (watchDockerEvents cfg tbl steps).2).Pairwise
          (fun a b => 60 * Second ≤ b - a) ∧
        (execs (watchDockerEvents cfg tbl steps).2).count
            ("docker", composeArgv cfg "kill" [n]) =
          (storesFor n (watchDockerEvents cfg tbl steps).2).length) ∧
    (∀ (cfg : Config) (w1 w2 : World) (ev1 ev2 : Message) (c1 c2 : ContainerJSON) (n : String),
      matching cfg w1 ev1 c1 → matching cfg w2 ev2 c2 →
      ev1.Action = "die" → ev2.Action = "die" →
      TrimPrefix c1.Name "/" = n → TrimPrefix c2.Name "/" = n →
      (clockReadings [⟨w1, .message ev1⟩, ⟨w2, .message ev2⟩]).Pairwise (fun a b => a ≤ b) →
      w2.clockSince ≤ w1.clockSince + 1 * Second →
      (watchDockerEvents cfg emptyTable [⟨w1, .message ev1⟩, ⟨w2, .message ev2⟩]).2 =
          (dispatchOutcome cfg w1 emptyTable ev1.ActorID n).2 ++
            (skipOutcome (emptyTable.set n w1.clockNow) ev2.ActorID n).2 ∧
        storesFor n
          (watchDockerEvents cfg emptyTable [⟨w1, .message ev1⟩, ⟨w2, .message ev2⟩]).2 =
            [w1.clockNow] ∧
        execs (watchDockerEvents cfg emptyTable [⟨w1, .message ev1⟩, ⟨w2, .message ev2⟩]).2 =
          execs (restartContainerWithDocker cfg w1 n) ∧
        (execs (watchDockerEvents cfg emptyTable
          [⟨w1, .message ev1⟩, ⟨w2, .message ev2⟩]).2).count
            ("docker", composeArgv cfg "kill" [n]) = 1) := by
  constructor
  · intro cfg tbl steps n hclk
    exact ⟨(watch_stores_gap cfg n steps tbl (clockReadings_since_le_now steps hclk)).1,
      watch_count_kill cfg n steps tbl⟩
  · intro cfg w1 w2 ev1 ev2 c1 c2 n hm1 hm2 _ _ hn1 hn2 hclk hsec
    subst hn1
    simp only [clockReadings, List.pairwise_cons, List.mem_cons, List.mem_singleton,
      forall_eq_or_imp, forall_eq] at hclk
    have h1 : handleDockerEvent cfg w1 emptyTable ev1 =
        dispatchOutcome cfg w1 emptyTable ev1.ActorID (TrimPrefix c1.Name "/") := by
      rw [handle_matching cfg w1 emptyTable ev1 c1 hm1]
      simp [emptyTable, inCooldown]
    have hcool : inCooldown w2 ((emptyTable.set (TrimPrefix c1.Name "/") w1.clockNow)
        (TrimPrefix c1.Name "/")) = true := by
      rw [inCooldown_eq_true_iff]
      refine ⟨w1.clockNow, set_same _ _ _, ?_⟩
      have := hclk.1.1
      unfold Second at hsec ⊢
      omega
    have h2 : handleDockerEvent cfg w2 (emptyTable.set (TrimPrefix c1.Name "/") w1.clockNow) ev2 =
        skipOutcome (emptyTable.set (TrimPrefix c1.Name "/") w1.clockNow) ev2.ActorID
          (TrimPrefix c1.Name "/") := by
      rw [handle_matching cfg w2 _ ev2 c2 hm2, hn2, hcool]
      rfl
    have hrun : (watchDockerEvents cfg emptyTable [⟨w1, .message ev1⟩, ⟨w2, .message ev2⟩]).2 =
        (dispatchOutcome cfg w1 emptyTable ev1.ActorID (TrimPrefix c1.Name "/")).2 ++
          (skipOutcome (emptyTable.set (TrimPrefix c1.Name "/") w1.clockNow) ev2.ActorID
            (TrimPrefix c1.Name "/")).2 := by
      rw [watch_cons_message, watch_cons_message, h1]
      simp only [dispatchOutcome] at h2 ⊢
      rw [h2]
      simp [watchDockerEvents]
    rw [hrun]
    refine ⟨rfl, ?_, ?_, ?_⟩
    · rw [storesFor_append, storesFor_dispatch]
      simp [skipOutcome, storesFor]
    · rw [execs_append, execs_dispatch]
      simp [skipOutcome, execs]
    · rw [execs_append, execs_dispatch, List.count_append, count_kill_restart]
      simp [skipOutcome, execs]

/-- C3 on examples: in the scenario run the writes under `app` are at 0 and at 65
seconds; and two `die` events for `app`, half a second apart on the empty table, give one
write and the four commands of one restart sequence. -/
theorem restarts_sixty_seconds_apart_witness :
    (storesFor "app" (watchDockerEvents exampleConfig emptyTable scenarioSteps).2).Pairwise
        (fun a b => 60 * Second ≤ b - a) ∧
    storesFor "app" (watchDockerEvents exampleConfig emptyTable
      [⟨exampleWorld "/app" 0 none, .message (containerEvent "die")⟩,
       ⟨exampleWorld "/app" 500000000 none, .message (containerEvent "die")⟩]).2 = [0] ∧
    execs (watchDockerEvents exampleConfig emptyTable
      [⟨exampleWorld "/app" 0 none, .message (containerEvent "die")⟩,
       ⟨exampleWorld "/app" 500000000 none, .message (containerEvent "die")⟩]).2 =
      restartSequence exampleConfig "app" := by
  have hm : ∀ t, matching exampleConfig (exampleWorld "/app" t none) (containerEvent "die")
      { Name := "/app", Image := "ghcr.io/org/app:latest" } :=
    fun t => ⟨by decide, rfl, by decide⟩
  have h2 := restarts_sixty_seconds_apart.2 exampleConfig (exampleWorld "/app" 0 none)
    (exampleWorld "/app" 500000000 none) (containerEvent "die") (containerEvent "die") _ _ "app"
    (hm _) (hm _) rfl rfl (by decide) (by decide) (by decide) (by decide)
  refine ⟨(restarts_sixty_seconds_apart.1 exampleConfig emptyTable scenarioSteps "app"
    (by decide)).1, h2.2.1, ?_⟩
  rw [h2.2.2.1]
  decide

/-! ## Skipped events and failed restarts -/

/-- C6. A matching event skipped because of the cooldown returns the table it was given
and does nothing but inspect and log. In the scenario (container `app`, image
`ghcr.io/org/app:latest`, tracked image `ghcr.io/org/app`, empty table): the event at 0
starts a restart sequence, the `restart` event at 5 seconds is skipped and leaves the
entry at 0, and the event at 65 seconds starts a second sequence. In general, if the entry
of `n` is `t0` and a run of any length writes nothing under `n`, a matching event for `n`
handled afterwards at least 60 seconds after `t0` is dispatched. -/
theorem skipped_event_keeps_timestamp :
    (∀ (cfg : Config) (w : World) (tbl : CooldownTable) (ev : Message) (c : ContainerJSON)
      (t0 : Int), matching cfg w ev c → tbl (TrimPrefix c.Name "/") = some t0 →
      w.clockSince - t0 < 60 * Second →
      (handleDockerEvent cfg w tbl ev).1 = tbl ∧
      (handleDockerEvent cfg w tbl ev).2 = [Effect.inspect ev.ActorID,
        Effect.log ("Skipping container " ++ TrimPrefix c.Name "/"
          ++ " (recently processed)\n")]) ∧
    (handleDockerEvent exampleConfig (exampleWorld "/app" 0 none) emptyTable
        (containerEvent "die") =
      dispatchOutcome exampleConfig (exampleWorld "/app" 0 none) emptyTable "c1" "app" ∧
     handleDockerEvent exampleConfig (exampleWorld "/app" 5000000000 none)
        (emptyTable.set "app" 0) (containerEvent "restart") =
      skipOutcome (emptyTable.set "app" 0) "c1" "app" ∧
     handleDockerEvent exampleConfig (exampleWorld "/app" 65000000000 none)
        (emptyTable.set "app" 0) (containerEvent "die") =
      dispatchOutcome exampleConfig (exampleWorld "/app" 65000000000 none)
        (emptyTable.set "app" 0) "c1" "app" ∧
     storesFor "app" (watchDockerEvents exampleConfig emptyTable scenarioSteps).2 =
      [0, 65000000000] ∧
     execs (watchDockerEvents exampleConfig emptyTable scenarioSteps).2 =
      restartSequence exampleConfig "app" ++ restartSequence exampleConfig "app" ∧
     Effect.log "Skipping container app (recently processed)\n" ∈
      (watchDockerEvents exampleConfig emptyTable scenarioSteps).2) ∧
    (∀ (cfg : Config) (tbl : CooldownTable) (steps : List Step) (w : World) (ev : Message)
      (c : ContainerJSON) (n : String) (t0 : Int),
      tbl n = some t0 → storesFor n (watchDockerEvents cfg tbl steps).2 = [] →
      matching cfg w ev c → TrimPrefix c.Name "/" = n → 60 * Second ≤ w.clockSince - t0 →
      handleDockerEvent cfg w (watchDockerEvents cfg tbl steps).1 ev =
        dispatchOutcome cfg w (watchDockerEvents cfg tbl steps).1 ev.ActorID n) := by
  have hm : ∀ t a, accepted (containerEvent a) →
      matching exampleConfig (exampleWorld "/app" t none) (containerEvent a)
        { Name := "/app", Image := "ghcr.io/org/app:latest" } :=
    fun t a ha => ⟨ha, rfl, by decide⟩
  refine ⟨?_, ⟨?_, ?_, ?_, by decide, by decide, by decide⟩, ?_⟩
  · intro cfg w tbl ev c t0 hmatch hent hlt
    rw [handle_matching cfg w tbl ev c hmatch,
      (inCooldown_eq_true_iff w _).2 ⟨t0, hent, hlt⟩]
    exact ⟨rfl, rfl⟩
  · rw [handle_matching _ _ _ _ _ (hm 0 "die" (by decide))]
    rfl
  · rw [handle_matching _ _ _ _ _ (hm 5000000000 "restart" (by decide))]
    rfl
  · rw [handle_matching _ _ _ _ _ (hm 65000000000 "die" (by decide))]
    rfl
  · intro cfg tbl steps w ev c n t0 hent hno hmatch hn hge
    subst hn
    rw [handle_matching cfg w _ ev c hmatch,
      (inCooldown_eq_false_iff w _).2
        (Or.inr ⟨t0, by rw [watch_no_store cfg _ steps tbl hno]; exact hent, hge⟩)]
    rfl

/-- C6 on an example: after the entry of `app` is written at 0, three skipped events at
5, 20 and 59 seconds write nothing, and a `die` event at 61 seconds is dispatched. -/
theorem skipped_event_keeps_timestamp_witness :
    (handleDockerEvent exampleConfig (exampleWorld "/app" 61000000000 none)
      (watchDockerEvents exampleConfig (emptyTable.set "app" 0)
        [⟨exampleWorld "/app" 5000000000 none, .message (containerEvent "restart")⟩,
         ⟨exampleWorld "/app" 20000000000 none, .message (containerEvent "die")⟩,
         ⟨exampleWorld "/app" 59000000000 none, .message (containerEvent "die")⟩]).1
      (containerEvent "die")).2.take 2 =
    [Effect.inspect "c1", Effect.store "app" 61000000000] := by
  rw [skipped_event_keeps_timestamp.2.2 exampleConfig (emptyTable.set "app" 0) _
    (exampleWorld "/app" 61000000000 none) (containerEvent "die")
    { Name := "/app", Image := "ghcr.io/org/app:latest" } "app" 0 (by decide) (by decide)
    ⟨by decide, rfl, by decide⟩ (by decide) (by decide)]
  rfl

/-- C10. When a matching event is dispatched, the table returned has the dispatch time
under the container name, whatever the outcome of the commands of the restart sequence
(the world `w`, and with it the success or failure of `kill`, `pull`, `rm` and `up`, is
arbitrary); so a later matching event for the same name, handled less than 60 seconds
after the dispatch time, is skipped and launches nothing. -/
theorem failed_restart_keeps_cooldown (cfg : Config) (w : World) (tbl : CooldownTable)
    (ev : Message) (c : ContainerJSON) (n : String)
    (hm : matching cfg w ev c) (hn : TrimPrefix c.Name "/" = n)
    (hel : inCooldown w (tbl n) = false) :
    (handleDockerEvent cfg w tbl ev).1 = tbl.set n w.clockNow ∧
    (handleDockerEvent cfg w tbl ev).1 n = some w.clockNow ∧
    execs (handleDockerEvent cfg w tbl ev).2 =
      throughFirstFailure (commandFails w) (restartSequence cfg n) ∧
    ∀ (w2 : World) (ev2 : Message) (c2 : ContainerJSON),
      matching cfg w2 ev2 c2 → TrimPrefix c2.Name "/" = n →
      w2.clockSince - w.clockNow < 60 * Second →
      handleDockerEvent cfg w2 (handleDockerEvent cfg w tbl ev).1 ev2 =
          skipOutcome (handleDockerEvent cfg w tbl ev).1 ev2.ActorID n ∧
        execs (handleDockerEvent cfg w2 (handleDockerEvent cfg w tbl ev).1 ev2).2 = [] := by
  subst hn
  have h1 : handleDockerEvent cfg w tbl ev =
      dispatchOutcome cfg w tbl ev.ActorID (TrimPrefix c.Name "/") := by
    rw [handle_matching cfg w tbl ev c hm, hel]
    rfl
  rw [h1]
  refine ⟨rfl, set_same _ _ _, by rw [execs_dispatch, execs_restart], ?_⟩
  intro w2 ev2 c2 hm2 hn2 hlt
  have h2 : handleDockerEvent cfg w2
      (dispatchOutcome cfg w tbl ev.ActorID (TrimPrefix c.Name "/")).1 ev2 =
      skipOutcome (dispatchOutcome cfg w tbl ev.ActorID (TrimPrefix c.Name "/")).1 ev2.ActorID
        (TrimPrefix c.Name "/") := by
    have hc : inCooldown w2 ((dispatchOutcome cfg w tbl ev.ActorID
        (TrimPrefix c.Name "/")).1 (TrimPrefix c.Name "/")) = true :=
      (inCooldown_eq_true_iff w2 _).2 ⟨w.clockNow, set_same _ _ _, hlt⟩
    rw [handle_matching cfg w2 _ ev2 c2 hm2, hn2, hc]
    rfl
  rw [h2]
  exact ⟨rfl, by simp [skipOutcome, execs]⟩

/-- C10 on an example: `pull` fails in the restart started for `app` at 0; the entry of
`app` is 0 afterwards, and a `die` event 30 seconds later launches nothing. -/
theorem failed_restart_keeps_cooldown_witness :
    (handleDockerEvent exampleConfig (exampleWorld "/app" 0 (some "pull")) emptyTable
      (containerEvent "die")).1 "app" = some 0 ∧
    execs (handleDockerEvent exampleConfig (exampleWorld "/app" 0 (some "pull")) emptyTable
      (containerEvent "die")).2 =
      [("docker", ["compose", "-f", "docker-compose.yml", "kill", "app"]),
       ("docker", ["compose", "-f", "docker-compose.yml", "pull", "app"])] ∧
    execs (handleDockerEvent exampleConfig (exampleWorld "/app" 30000000000 none)
      (handleDockerEvent exampleConfig (exampleWorld "/app" 0 (some "pull")) emptyTable
        (containerEvent "die")).1 (containerEvent "die")).2 = [] := by
  have h := failed_restart_keeps_cooldown exampleConfig (exampleWorld "/app" 0 (some "pull"))
    emptyTable (containerEvent "die") { Name := "/app", Image := "ghcr.io/org/app:latest" }
    "app" ⟨by decide, rfl, by decide⟩ (by decide) (by decide)
  refine ⟨h.2.1, ?_, ?_⟩
  · rw [h.2.2.1]
    decide
  · exact (h.2.2.2 (exampleWorld "/app" 30000000000 none) (containerEvent "die")
      { Name := "/app", Image := "ghcr.io/org/app:latest" } ⟨by decide, rfl, by decide⟩
      (by decide) (by decide)).2

/-! ## The container name used as key -/

theorem TrimPrefix_slash_cons (s : String) (r : List Char) (h : s.data = '/' :: r) :
    TrimPrefix s "/" = String.mk r := by
  have hs : ("/" : String).data = ['/'] := rfl
  unfold TrimPrefix HasPrefix hasPrefixList
  rw [hs, h]
  simp

theorem TrimPrefix_of_not_hasPrefix (s pre : String) (h : HasPrefix s pre = false) :
    TrimPrefix s pre = s := by
  unfold TrimPrefix
  rw [h]
  simp

theorem hasPrefix_slash_iff (s : String) :
    HasPrefix s "/" = true ↔ ∃ r, s.data = '/' :: r := by
  have hs : ("/" : String).data = ['/'] := rfl
  unfold HasPrefix
  rw [hasPrefixList_iff, hs]
  constructor
  · rintro ⟨t, ht⟩
    exact ⟨t, ht.symm⟩
  · rintro ⟨r, hr⟩
    exact ⟨r, hr.symm⟩

theorem hasPrefix_two_slashes_iff (s : String) :
    HasPrefix s "//" = true ↔ ∃ r, s.data = '/' :: '/' :: r := by
  have hs : ("//" : String).data = ['/', '/'] := rfl
  unfold HasPrefix
  rw [hasPrefixList_iff, hs]
  constructor
  · rintro ⟨t, ht⟩
    exact ⟨t, ht.symm⟩
  · rintro ⟨r, hr⟩
    exact ⟨r, hr.symm⟩

theorem mem_storesFor_of_mem (k : String) (t : Int) (l : List Effect)
    (h : Effect.store k t ∈ l) : t ∈ storesFor k l := by
  induction l with
  | nil => cases h
  | cons x xs ih =>
    rcases List.mem_cons.1 h with rfl | h2
    · simp [storesFor]
    · have := ih h2
      cases x <;> simp only [storesFor] <;> try exact this
      split_ifs
      · exact List.mem_cons_of_mem _ this
      · exact this

/-- C9, as stated, fails: for a matching `die` event whose resolved container name is
`//app`, the key written to the cooldown table and passed to the four compose commands is
`/app`, which begins with `/`. -/
theorem container_key_keeps_second_slash :
    matching exampleConfig (exampleWorld "//app" 0 none) (containerEvent "die")
      { Name := "//app", Image := "ghcr.io/org/app:latest" } ∧
    (handleDockerEvent exampleConfig (exampleWorld "//app" 0 none) emptyTable
      (containerEvent "die")).2.take 4 =
      [Effect.inspect "c1", Effect.store "/app" 0,
        Effect.log
          "Container /app with image ghcr.io/org/app stopped. Updating to latest image...\n",
        Effect.exec "docker" ["compose", "-f", "docker-compose.yml", "kill", "/app"]] ∧
    execs (handleDockerEvent exampleConfig (exampleWorld "//app" 0 none) emptyTable
      (containerEvent "die")).2 =
      [("docker", ["compose", "-f", "docker-compose.yml", "kill", "/app"]),
       ("docker", ["compose", "-f", "docker-compose.yml", "pull", "/app"]),
       ("docker", ["compose", "-f", "docker-compose.yml", "rm", "-f", "/app"]),
       ("docker", ["compose", "-f", "docker-compose.yml", "up", "-d", "/app"])] ∧
    (handleDockerEvent exampleConfig (exampleWorld "//app" 0 none) emptyTable
      (containerEvent "die")).1 "/app" = some 0 ∧
    (handleDockerEvent exampleConfig (exampleWorld "//app" 0 none) emptyTable
      (containerEvent "die")).1 "app" = none ∧
    HasPrefix "/app" "/" = true := by
  refine ⟨⟨by decide, rfl, by decide⟩, by decide, by decide, by decide, by decide, by decide⟩

/-- C9, amended. For every matching event there is one string `k`, the resolved container
name with one leading `/` removed when it has one (`strings.TrimPrefix`), such that the
cooldown check looks up `k`, every write to the table is under `k`, and every process
launched is one of the four compose invocations for `k`, each of which ends with `k`.
The key `k` does not begin with `/` when the resolved name does not begin with `//`. -/
theorem container_key_is_trimmed_name (cfg : Config) (w : World) (tbl : CooldownTable)
    (ev : Message) (c : ContainerJSON) (hm : matching cfg w ev c) :
    (handleDockerEvent cfg w tbl ev =
      if inCooldown w (tbl (TrimPrefix c.Name "/")) then
        skipOutcome tbl ev.ActorID (TrimPrefix c.Name "/")
      else dispatchOutcome cfg w tbl ev.ActorID (TrimPrefix c.Name "/")) ∧
    (∀ k t, Effect.store k t ∈ (handleDockerEvent cfg w tbl ev).2 →
      k = TrimPrefix c.Name "/" ∧
        (handleDockerEvent cfg w tbl ev).1 = tbl.set (TrimPrefix c.Name "/") t) ∧
    execs (handleDockerEvent cfg w tbl ev).2 <+: restartSequence cfg (TrimPrefix c.Name "/") ∧
    (∀ cmd ∈ restartSequence cfg (TrimPrefix c.Name "/"),
      cmd.2.getLast? = some (TrimPrefix c.Name "/")) ∧
    (∀ r : String, c.Name = "/" ++ r → TrimPrefix c.Name "/" = r) ∧
    (HasPrefix c.Name "/" = false → TrimPrefix c.Name "/" = c.Name) ∧
    (HasPrefix c.Name "//" = false → HasPrefix (TrimPrefix c.Name "/") "/" = false) := by
  have hh := handle_matching cfg w tbl ev c hm
  refine ⟨hh, ?_, ?_, ?_, ?_, ?_, ?_⟩
  · intro k t hmem
    rw [hh] at hmem ⊢
    cases hc : inCooldown w (tbl (TrimPrefix c.Name "/"))
    · rw [hc] at hmem
      simp only [Bool.false_eq_true, if_false, dispatchOutcome, List.mem_append,
        List.mem_cons, List.mem_singleton, List.not_mem_nil, or_false] at hmem ⊢
      rcases hmem with (h | h | h) | h
      · cases h
      · cases h
        exact ⟨rfl, rfl⟩
      · cases h
      · have hst := mem_storesFor_of_mem k t _ h
        rw [storesFor_restart] at hst
        cases hst
    · rw [hc] at hmem
      simp [skipOutcome] at hmem
  · rw [hh]
    cases hc : inCooldown w (tbl (TrimPrefix c.Name "/"))
    · simp only [Bool.false_eq_true, if_false]
      rw [execs_dispatch, execs_restart]
      exact throughFirstFailure_initial _ _
    · simp [skipOutcome, execs]
  · intro cmd hcmd
    simp only [restartSequence, composeArgv, List.mem_cons, List.mem_singleton,
      List.not_mem_nil, or_false] at hcmd
    rcases hcmd with rfl | rfl | rfl | rfl <;> simp
  · intro r hr
    have hd : c.Name.data = '/' :: r.data := by
      rw [hr, String.data_append]
      rfl
    rw [TrimPrefix_slash_cons c.Name r.data hd]
  · exact TrimPrefix_of_not_hasPrefix c.Name "/"
  · intro h2
    cases h1 : HasPrefix c.Name "/"
    · rw [TrimPrefix_of_not_hasPrefix c.Name "/" h1]
      exact h1
    · obtain ⟨r, hr⟩ := (hasPrefix_slash_iff c.Name).1 h1
      rw [TrimPrefix_slash_cons c.Name r hr]
      cases h3 : HasPrefix (String.mk r) "/"
      · rfl
      · obtain ⟨r2, hr2⟩ := (hasPrefix_slash_iff _).1 h3
        have : HasPrefix c.Name "//" = true :=
          (hasPrefix_two_slashes_iff c.Name).2 ⟨r2, by rw [hr]; simp at hr2; rw [hr2]⟩
        rw [this] at h2
        cases h2

/-- C9, amended, on examples: the resolved names `/app` and `app` both give the key
`app`, which does not begin with `/`. -/
theorem container_key_is_trimmed_name_witness :
    TrimPrefix "/app" "/" = "app" ∧ TrimPrefix "app" "/" = "app" ∧
    HasPrefix (TrimPrefix "/app" "/") "/" = false ∧
    execs (handleDockerEvent exampleConfig (exampleWorld "app" 0 none) emptyTable
      (containerEvent "die")).2 <+: restartSequence exampleConfig "app" := by
  have h1 := container_key_is_trimmed_name exampleConfig (exampleWorld "/app" 0 none)
    emptyTable (containerEvent "die") { Name := "/app", Image := "ghcr.io/org/app:latest" }
    ⟨by decide, rfl, by decide⟩
  have h2 := container_key_is_trimmed_name exampleConfig (exampleWorld "app" 0 none)
    emptyTable (containerEvent "die") { Name := "app", Image := "ghcr.io/org/app:latest" }
    ⟨by decide, rfl, by decide⟩
  refine ⟨h1.2.2.2.2.1 "app" (by decide), h2.2.2.2.2.2.1 (by decide),
    h1.2.2.2.2.2.2 (by decide), ?_⟩
  have h3 := h2.2.2.1
  rw [show TrimPrefix "app" "/" = "app" by decide] at h3
  exact h3

end Watchdog
